import Mathlib

/-!
Verification of the HTTP JSON-RPC gateway (httprpc.cpp) of this repository.

Strings coming from HTTP headers and credentials are byte strings, embedded as
`List Nat` with every byte below 256.  JSON values are embedded by the
inductive `JVal` mirroring json_spirit's value type.  Side effects of the
handler (logging, sleeping, writing headers and replies) are embedded as an
explicit trace of `Event`s, produced in the order the source performs them.
-/

namespace HttpRpc

/-- json_spirit value type (null, bool, int, string, array, object). -/
inductive JVal where
  | null
  | bool (b : Bool)
  | num (n : Int)
  | str (s : String)
  | arr (elems : List JVal)
  | obj (fields : List (String × JVal))

/-- json_spirit `Object`: an ordered list of name/value pairs. -/
def Obj := List (String × JVal)

/-- json_spirit `find_value`: first field with the given name, else null. -/
def find_value (o : Obj) (name : String) : JVal :=
  match o.find? (fun p => p.1 == name) with
  | some p => p.2
  | none => JVal.null

/-- json_spirit `Value::get_int`.  json_spirit raises on a non-integer value;
every object this file passes in carries an integer `code` field, so the
default branch is unreachable at the call sites below. -/
def JVal.get_int : JVal → Int
  | JVal.num n => n
  | _ => 0

/- HTTP status codes and JSON-RPC error codes (rpcprotocol.h). -/

def HTTP_OK : Nat := 200
def HTTP_BAD_REQUEST : Nat := 400
def HTTP_UNAUTHORIZED : Nat := 401
def HTTP_NOT_FOUND : Nat := 404
def HTTP_BAD_METHOD : Nat := 405
def HTTP_INTERNAL_SERVER_ERROR : Nat := 500

def RPC_INVALID_REQUEST : Int := -32600
def RPC_METHOD_NOT_FOUND : Int := -32601
def RPC_PARSE_ERROR : Int := -32700
def RPC_IN_WARMUP : Int := -28

/-- Modelled from the spec: `JSONRPCError` (rpcprotocol.cpp is absent from
src/) builds the RPC error object `\x7b"code": <int>, "message": "<text>"\x7d`. -/
def JSONRPCError (code : Int) (message : String) : Obj :=
  [("code", JVal.num code), ("message", JVal.str message)]

/-- Modelled from the spec: `JSONRPCReplyObj` (rpcprotocol.cpp is absent from
src/) builds the response envelope; exactly one of result/error is non-null
and the request id is echoed unchanged. -/
def JSONRPCReplyObj (result error id : JVal) : JVal :=
  JVal.obj [("result", match error with | JVal.null => result | _ => JVal.null),
            ("error", error),
            ("id", id)]

/-! ## Base64 (modelled from the spec)

`DecodeBase64`/`EncodeBase64` live in utilstrencodings.cpp, which is absent
from src/.  Modelled from the spec: standard base64 over the alphabet
`A-Z a-z 0-9 + /` with `=` padding; a decoding failure is reported (as
`none`) and treated by the caller as non-matching input, not as a crash. -/

/-- Base64 alphabet: 6-bit group to character code. -/
def b64c (d : Nat) : Nat :=
  if d < 26 then 65 + d
  else if d < 52 then 97 + (d - 26)
  else if d < 62 then 48 + (d - 52)
  else if d = 62 then 43
  else 47

/-- Base64 alphabet: character code back to 6-bit group, `none` off-alphabet. -/
def b64d (c : Nat) : Option Nat :=
  if 65 ≤ c ∧ c ≤ 90 then some (c - 65)
  else if 97 ≤ c ∧ c ≤ 122 then some (26 + (c - 97))
  else if 48 ≤ c ∧ c ≤ 57 then some (52 + (c - 48))
  else if c = 43 then some 62
  else if c = 47 then some 63
  else none

/-- Modelled from the spec: base64 encoding of a byte string. -/
def EncodeBase64 : List Nat → List Nat
  | a :: b :: c :: rest =>
      b64c (a / 4) :: b64c ((a % 4) * 16 + b / 16) ::
      b64c ((b % 16) * 4 + c / 64) :: b64c (c % 64) :: EncodeBase64 rest
  | [a, b] => [b64c (a / 4), b64c ((a % 4) * 16 + b / 16), b64c ((b % 16) * 4), 61]
  | [a] => [b64c (a / 4), b64c ((a % 4) * 16), 61, 61]
  | [] => []

/-- Decode the final four characters of a base64 string (padding lives here). -/
def decodeLast (c0 c1 c2 c3 : Nat) : Option (List Nat) :=
  if c2 = 61 then
    if c3 = 61 then
      match b64d c0, b64d c1 with
      | some d0, some d1 =>
          if d1 % 16 = 0 then some [d0 * 4 + d1 / 16] else none
      | _, _ => none
    else none
  else if c3 = 61 then
    match b64d c0, b64d c1, b64d c2 with
    | some d0, some d1, some d2 =>
        if d2 % 4 = 0 then some [d0 * 4 + d1 / 16, (d1 % 16) * 16 + d2 / 4] else none
    | _, _, _ => none
  else
    match b64d c0, b64d c1, b64d c2, b64d c3 with
    | some d0, some d1, some d2, some d3 =>
        some [d0 * 4 + d1 / 16, (d1 % 16) * 16 + d2 / 4, (d2 % 4) * 64 + d3]
    | _, _, _, _ => none

/-- Modelled from the spec: base64 decoding; canonical form only, `none` on
any malformed input. -/
def DecodeBase64 : List Nat → Option (List Nat)
  | c0 :: c1 :: c2 :: c3 :: rest =>
      if rest = [] then decodeLast c0 c1 c2 c3
      else
        match b64d c0, b64d c1, b64d c2, b64d c3, DecodeBase64 rest with
        | some d0, some d1, some d2, some d3, some m =>
            some ((d0 * 4 + d1 / 16) :: ((d1 % 16) * 16 + d2 / 4) :: ((d2 % 4) * 64 + d3) :: m)
        | _, _, _, _, _ => none
  | [] => some []
  | _ => none

/-- Whitespace as classified by `std::isspace` in the classic locale. -/
def isWS (c : Nat) : Bool :=
  c = 9 || c = 10 || c = 11 || c = 12 || c = 13 || c = 32

/-- `boost::trim` (external library): strip whitespace from both ends. -/
def trimWS (s : List Nat) : List Nat :=
  ((s.dropWhile isWS).reverse.dropWhile isWS).reverse

/-- Modelled from the spec: `TimingResistantEqual` (utilstrencodings.h is
absent from src/) is functionally an equality test of the two byte strings;
its constant-time execution is a timing property outside this embedding. -/
def TimingResistantEqual (a b : List Nat) : Bool := a == b

/-- The literal scheme token `"Basic "` as bytes. -/
def basicToken : List Nat := [66, 97, 115, 105, 99, 32]

/-- httprpc.cpp `RPCAuthorized`, with the global `strRPCUserColonPass` made an
explicit first argument.  The source decodes with the non-reporting string
overload of `DecodeBase64`; per the spec a decoding failure is treated as
non-matching input, embedded here as the `none` branch. -/
def RPCAuthorized (strRPCUserColonPass strAuth : List Nat) : Bool :=
  if strRPCUserColonPass = [] then false
  else if strAuth.take 6 ≠ basicToken then false
  else
    let strUserPass64 := trimWS (strAuth.drop 6)
    match DecodeBase64 strUserPass64 with
    | some strUserPass => TimingResistantEqual strUserPass strRPCUserColonPass
    | none => false

/-! ## The HTTP request handler (httprpc.cpp `HTTPReq_JSONRPC`)

The handler's side effects — `LogPrintf`, `MilliSleep`, `HTTPRequest::WriteHeader`
and `HTTPRequest::WriteReply` — are embedded as a trace of `Event`s in the order
the source performs them.  A reply body is either a plain string or a JSON value
standing for its json_spirit serialization. -/

/-- A reply body: plain text, or the JSON value whose serialization is sent. -/
inductive JBody where
  | str (s : String)
  | json (v : JVal)

/-- One observable side effect of the handler. -/
inductive Event where
  | logPrint (msg : String)
  | milliSleep (ms : Nat)
  | writeHeader (hdr value : String)
  | writeReply (status : Nat) (body : JBody)

/-- `HTTPRequest::RequestMethod` (httpserver.h). -/
inductive RequestMethod where
  | UNKNOWN
  | GET
  | POST
  | HEAD
  | PUT
deriving DecidableEq

/-- The parts of an in-flight `HTTPRequest` the handler reads: the method, the
`authorization` header (`GetHeader` returns a present/value pair), the body and
the peer address. -/
structure HTTPRequestData where
  method : RequestMethod
  authorization : Option (List Nat)
  body : String
  peer : String

/-- What `tableRPC.execute` can throw past the dispatch boundary: a
json_spirit `Object` error (caught first in the source) or a `std::exception`
carrying its `what()` description. -/
inductive Thrown where
  | rpcObj (objError : Obj)
  | stdExc (what : String)

/-- The handler's collaborators: the stored credential, the warmup gate
(`RPCIsInWarmup`; `some status` while warming up), the JSON parser
(json_spirit `read_string`; `none` on parse failure), the method registry
(`tableRPC.execute`), and the batch executor (`JSONRPCExecBatch`,
rpcserver.cpp, which returns a serialized reply and catches per-element
failures itself). -/
structure World where
  strRPCUserColonPass : List Nat
  warmup : Option String
  read_string : String → Option JVal
  execute : String → JVal → Except Thrown JVal
  execBatch : List JVal → String

/-- rpcserver.h `JSONRequest`: id, method name and params of a single call. -/
structure JSONRequest where
  id : JVal
  strMethod : String
  params : JVal

/-- Modelled from the spec: `JSONRequest::parse` (rpcserver.cpp is absent from
src/) records the opaque `id` first (JSON null when absent), then requires a
string `method` and takes `params` as given; a malformed call yields a thrown
invalid-request error object while the already-recorded id is kept for the
error reply. -/
def JSONRequest.parse (v : JVal) : JSONRequest × Option Obj :=
  match v with
  | JVal.obj fields =>
      let i := find_value fields "id"
      match find_value fields "method" with
      | JVal.str m =>
          ({ id := i, strMethod := m, params := find_value fields "params" }, none)
      | _ =>
          ({ id := i, strMethod := "", params := JVal.null },
           some (JSONRPCError RPC_INVALID_REQUEST "Missing or invalid method"))
  | _ =>
      ({ id := JVal.null, strMethod := "", params := JVal.null },
       some (JSONRPCError RPC_INVALID_REQUEST "Invalid Request object"))

/-- httprpc.cpp `JSONErrorReply`: map the error code to an HTTP status and send
the serialized error envelope (result null, the error object, the echoed id). -/
def JSONErrorStatus (code : Int) : Nat :=
  if code = RPC_INVALID_REQUEST then HTTP_BAD_REQUEST
  else if code = RPC_METHOD_NOT_FOUND then HTTP_NOT_FOUND
  else HTTP_INTERNAL_SERVER_ERROR

/-- httprpc.cpp `JSONErrorReply` as the events it performs on the request. -/
def JSONErrorReply (objError : Obj) (id : JVal) : List Event :=
  [Event.writeHeader "Content-Type" "application/json",
   Event.writeReply (JSONErrorStatus (find_value objError "code").get_int)
     (JBody.json (JSONRPCReplyObj JVal.null (JVal.obj objError) id))]

/-- httprpc.cpp `HTTPReq_JSONRPC`: the trace of events performed on the
request, paired with the handler's boolean return value.  The source's
try/catch is embedded by folding each throw site into the matching catch
clause (`catch (const json_spirit::Object&)` calls `JSONErrorReply` with the
thrown object, `catch (const std::exception&)` wraps `e.what()` in a
parse-error object), with `jreq.id` as already assigned at the throw site. -/
def HTTPReq_JSONRPC (w : World) (req : HTTPRequestData) : List Event × Bool :=
  if req.method ≠ RequestMethod.POST then
    ([Event.writeReply HTTP_BAD_METHOD (JBody.str "JSONRPC server handles only POST requests")],
     false)
  else
    match req.authorization with
    | none => ([Event.writeReply HTTP_UNAUTHORIZED (JBody.str "")], false)
    | some strAuth =>
      if RPCAuthorized w.strRPCUserColonPass strAuth then
        match w.read_string req.body with
        | none => (JSONErrorReply (JSONRPCError RPC_PARSE_ERROR "Parse error") JVal.null, false)
        | some valRequest =>
          match w.warmup with
          | some warmupStatus =>
              (JSONErrorReply (JSONRPCError RPC_IN_WARMUP warmupStatus) JVal.null, false)
          | none =>
            match valRequest with
            | JVal.obj _ =>
              match JSONRequest.parse valRequest with
              | (jreq, some objError) => (JSONErrorReply objError jreq.id, false)
              | (jreq, none) =>
                match w.execute jreq.strMethod jreq.params with
                | Except.ok result =>
                    ([Event.writeHeader "Content-Type" "application/json",
                      Event.writeReply HTTP_OK
                        (JBody.json (JSONRPCReplyObj result JVal.null jreq.id))], true)
                | Except.error (Thrown.rpcObj objError) =>
                    (JSONErrorReply objError jreq.id, false)
                | Except.error (Thrown.stdExc what) =>
                    (JSONErrorReply (JSONRPCError RPC_PARSE_ERROR what) jreq.id, false)
            | JVal.arr elems =>
                ([Event.writeHeader "Content-Type" "application/json",
                  Event.writeReply HTTP_OK (JBody.str (w.execBatch elems))], true)
            | _ =>
                (JSONErrorReply (JSONRPCError RPC_PARSE_ERROR "Top-level object parse error")
                  JVal.null, false)
      else
        ([Event.logPrint ("ThreadRPCServer incorrect password attempt from " ++ req.peer),
          Event.milliSleep 250,
          Event.writeReply HTTP_UNAUTHORIZED (JBody.str "")], false)

/-- The `(status, body)` pairs of the replies written in a trace. -/
def replies (tr : List Event) : List (Nat × JBody) :=
  tr.filterMap fun e =>
    match e with
    | Event.writeReply s b => some (s, b)
    | _ => none

/-- The JSON envelopes among the replies written in a trace. -/
def jsonReplies (tr : List Event) : List JVal :=
  tr.filterMap fun e =>
    match e with
    | Event.writeReply _ (JBody.json v) => some v
    | _ => none

/-- The id field of a response envelope. -/
def envId (v : JVal) : JVal :=
  match v with
  | JVal.obj fields => find_value fields "id"
  | _ => JVal.null

/-- Whether a JSON value is an object or an array (the two top-level shapes
the handler accepts). -/
def isObjOrArr : JVal → Bool
  | JVal.obj _ => true
  | JVal.arr _ => true
  | _ => false

/-! ## Startup (httprpc.cpp `InitRPCAuthentication`) -/

/-- The configuration read at startup: `mapArgs["-rpcuser"]`,
`mapArgs["-rpcpassword"]` (byte strings) and `Params().RequireRPCPassword()`. -/
structure Config where
  rpcuser : List Nat
  rpcpassword : List Nat
  requireRPCPassword : Bool

/-- httprpc.cpp `InitRPCAuthentication`: the credential it stores into
`strRPCUserColonPass` (assigned before the validity check, as in the source)
and its boolean return value; on failure the source shows a remediation
message and `StartHTTPRPC` aborts without registering anything. -/
def InitRPCAuthentication (cfg : Config) : List Nat × Bool :=
  if (cfg.rpcpassword = [] ∨ cfg.rpcuser = cfg.rpcpassword) ∧ cfg.requireRPCPassword then
    (cfg.rpcuser ++ 58 :: cfg.rpcpassword, false)
  else (cfg.rpcuser ++ 58 :: cfg.rpcpassword, true)

/-! ## The one-shot timer (httprpc.cpp `HTTPRPCTimer`, httpserver.h `HTTPEvent`)

`HTTPEvent`'s implementation lives in httpserver.cpp, which is absent from
src/.  Modelled from the spec and the header: the event is registered with the
event loop when triggered, fires its handler at most once (one-shot), and
deletes itself after firing exactly when its `deleteWhenTriggered` flag is
set; otherwise the object survives until its owner destroys it. -/

structure TimerState where
  deleteWhenTriggered : Bool
  pending : Bool
  fired : Nat
  destroyed : Bool

/-- httprpc.cpp line 22: `HTTPRPCTimer` constructs its `HTTPEvent` with
`deleteWhenTriggered = false` and immediately schedules it (`ev.trigger`). -/
def HTTPRPCTimer.new : TimerState :=
  { deleteWhenTriggered := false, pending := true, fired := 0, destroyed := false }

inductive TimerStep where
  | fire
  | destroy

/-- Modelled from the spec: one event-loop step.  `fire` runs the callback of
a pending, live event; the registration is consumed (one-shot) and the object
deletes itself exactly when `deleteWhenTriggered`.  `destroy` is the owner
deleting the timer (explicit cancellation), releasing the registration. -/
def stepTimer (s : TimerState) : TimerStep → TimerState
  | TimerStep.fire =>
      if s.pending ∧ ¬ s.destroyed then
        { s with pending := false, fired := s.fired + 1,
                 destroyed := s.deleteWhenTriggered }
      else s
  | TimerStep.destroy => { s with pending := false, destroyed := true }

/-- The timer state after a sequence of event-loop steps. -/
def runTimer (steps : List TimerStep) : TimerState :=
  steps.foldl stepTimer HTTPRPCTimer.new

/-- Flip bit `k` of the byte at position `i`. -/
def flipBit (l : List Nat) (i k : Nat) : List Nat :=
  l.set i ((l.getD i 0) ^^^ 2 ^ k)

/-- The Authenticator contract restated from the spec's words (section 4.1),
the refinement target for `RPCAuthorized`. -/
def AuthorizedSpec (stored strAuth : List Nat) : Bool :=
  if stored = [] then false
  else if strAuth.take 6 = basicToken then
    match DecodeBase64 (trimWS (strAuth.drop 6)) with
    | some decoded => decoded == stored
    | none => false
  else false

/-! ## Concrete fixtures used by witnesses and counterexamples -/

/-- A world whose credential is `u:p` and whose registry answers `"pong"`. -/
def wOk : World :=
  { strRPCUserColonPass := [117, 58, 112],
    warmup := none,
    read_string := fun _ =>
      some (JVal.obj [("method", JVal.str "ping"), ("params", JVal.arr []),
                      ("id", JVal.num 7)]),
    execute := fun _ _ => Except.ok (JVal.str "pong"),
    execBatch := fun _ => "" }

/-- `wOk` while the node reports warming up. -/
def wWarm : World := { wOk with warmup := some "Loading block index..." }

/-- `wOk` whose registry throws a `std::exception`. -/
def wExc : World := { wOk with execute := fun _ _ => Except.error (Thrown.stdExc "boom") }

/-- `wOk` whose request body does not parse as JSON. -/
def wPFail : World := { wOk with read_string := fun _ => none }

/-- `wOk` whose body parses to a top-level string (neither object nor array). -/
def wTop : World := { wOk with read_string := fun _ => some (JVal.str "x") }

/-- A well-formed authenticated POST. -/
def reqOk : HTTPRequestData :=
  { method := RequestMethod.POST,
    authorization := some (basicToken ++ EncodeBase64 [117, 58, 112]),
    body := "ping",
    peer := "127.0.0.1" }

/-- `reqOk` without an `Authorization` header. -/
def reqNoAuth : HTTPRequestData := { reqOk with authorization := none }

/-- `reqOk` with a non-matching `Authorization` header. -/
def reqBadAuth : HTTPRequestData := { reqOk with authorization := some (basicToken ++ [33]) }

/-! ## Properties of the base64 model -/

set_option maxRecDepth 4096 in
theorem b64d_b64c {d : Nat} (h : d < 64) : b64d (b64c d) = some d := by
  revert h; revert d; decide

theorem b64d_eq_some {c d : Nat} (h : b64d c = some d) : c = b64c d ∧ d < 64 := by
  unfold b64d at h
  unfold b64c
  repeat' split at h
  all_goals first
    | (injection h with h; subst h; repeat' split
       all_goals omega)
    | (exact absurd h (by simp))

theorem b64c_ne_61 (d : Nat) : b64c d ≠ 61 := by
  unfold b64c; repeat' split
  all_goals omega

theorem b64c_ge_43 (d : Nat) : 43 ≤ b64c d := by
  unfold b64c; repeat' split
  all_goals omega

theorem decodeLast_canonical {c0 c1 c2 c3 : Nat} {m : List Nat}
    (h : decodeLast c0 c1 c2 c3 = some m) : EncodeBase64 m = [c0, c1, c2, c3] := by
  unfold decodeLast at h
  split at h
  · rename_i hc2
    split at h
    · rename_i hc3
      split at h
      · rename_i d0 d1 h0 h1
        split at h
        · rename_i hmod
          injection h with h
          obtain ⟨e0, hlt0⟩ := b64d_eq_some h0
          obtain ⟨e1, hlt1⟩ := b64d_eq_some h1
          subst h hc2 hc3 e0 e1
          simp only [EncodeBase64]
          have r0 : (d0 * 4 + d1 / 16) / 4 = d0 := by omega
          have r1 : ((d0 * 4 + d1 / 16) % 4) * 16 = d1 := by omega
          rw [r0, r1]
        · exact absurd h (by simp)
      · exact absurd h (by simp)
    · exact absurd h (by simp)
  · rename_i hc2
    split at h
    · rename_i hc3
      split at h
      · rename_i d0 d1 d2 h0 h1 h2
        split at h
        · rename_i hmod
          injection h with h
          obtain ⟨e0, hlt0⟩ := b64d_eq_some h0
          obtain ⟨e1, hlt1⟩ := b64d_eq_some h1
          obtain ⟨e2, hlt2⟩ := b64d_eq_some h2
          subst h hc3 e0 e1 e2
          simp only [EncodeBase64]
          have r0 : (d0 * 4 + d1 / 16) / 4 = d0 := by omega
          have r1 : ((d0 * 4 + d1 / 16) % 4) * 16 + ((d1 % 16) * 16 + d2 / 4) / 16 = d1 := by
            omega
          have r2 : (((d1 % 16) * 16 + d2 / 4) % 16) * 4 = d2 := by omega
          rw [r0, r1, r2]
        · exact absurd h (by simp)
      · exact absurd h (by simp)
    · rename_i hc3
      split at h
      case _ d0 d1 d2 d3 h0 h1 h2 h3 =>
        injection h with h
        obtain ⟨e0, hlt0⟩ := b64d_eq_some h0
        obtain ⟨e1, hlt1⟩ := b64d_eq_some h1
        obtain ⟨e2, hlt2⟩ := b64d_eq_some h2
        obtain ⟨e3, hlt3⟩ := b64d_eq_some h3
        subst h e0 e1 e2 e3
        simp only [EncodeBase64]
        have r0 : (d0 * 4 + d1 / 16) / 4 = d0 := by omega
        have r1 : ((d0 * 4 + d1 / 16) % 4) * 16 + ((d1 % 16) * 16 + d2 / 4) / 16 = d1 := by
          omega
        have r2 : (((d1 % 16) * 16 + d2 / 4) % 16) * 4 + ((d2 % 4) * 64 + d3) / 64 = d2 := by
          omega
        have r3 : ((d2 % 4) * 64 + d3) % 64 = d3 := by omega
        rw [r0, r1, r2, r3]
      all_goals exact absurd h (by simp)

theorem encode_eq_nil {m : List Nat} (h : EncodeBase64 m = []) : m = [] := by
  rcases m with _ | ⟨a, _ | ⟨b, _ | ⟨c, r⟩⟩⟩ <;> simp [EncodeBase64] at h ⊢

theorem decode_canonical :
    ∀ (s : List Nat) (m : List Nat), DecodeBase64 s = some m → EncodeBase64 m = s := by
  intro s
  induction s using DecodeBase64.induct
  case case1 c0 c1 c2 c3 =>
    intro m h
    rw [show DecodeBase64 [c0, c1, c2, c3] = decodeLast c0 c1 c2 c3 from by
      rw [DecodeBase64]; simp] at h
    exact decodeLast_canonical h
  case case2 c0 c1 c2 c3 rest hrest d0 d1 d2 d3 m' hrec h3 h2 h1 h0 ih =>
    intro m h
    rw [DecodeBase64, if_neg hrest, h0, h1, h2, h3, hrec] at h
    injection h with h
    obtain ⟨e0, hlt0⟩ := b64d_eq_some h0
    obtain ⟨e1, hlt1⟩ := b64d_eq_some h1
    obtain ⟨e2, hlt2⟩ := b64d_eq_some h2
    obtain ⟨e3, hlt3⟩ := b64d_eq_some h3
    subst h e0 e1 e2 e3
    simp only [EncodeBase64]
    have r0 : (d0 * 4 + d1 / 16) / 4 = d0 := by omega
    have r1 : ((d0 * 4 + d1 / 16) % 4) * 16 + ((d1 % 16) * 16 + d2 / 4) / 16 = d1 := by omega
    have r2 : (((d1 % 16) * 16 + d2 / 4) % 16) * 4 + ((d2 % 4) * 64 + d3) / 64 = d2 := by omega
    have r3 : ((d2 % 4) * 64 + d3) % 64 = d3 := by omega
    rw [r0, r1, r2, r3, ih m' hrec]
  case case3 c0 c1 c2 c3 rest hrest hfail ih =>
    intro m h
    rw [DecodeBase64, if_neg hrest] at h
    split at h
    · rename_i d0 d1 d2 d3 m' h0 h1 h2 h3 hrec
      exact (hfail d0 d1 d2 d3 m' h0 h1 h2 h3 hrec).elim
    · exact absurd h (by simp)
  case case4 =>
    intro m h
    rw [DecodeBase64] at h
    injection h with h
    subst h
    rfl
  case case5 t h4 hnil =>
    intro m h
    rcases t with _ | ⟨a, _ | ⟨b, _ | ⟨c, _ | ⟨d, r⟩⟩⟩⟩
    · exact (hnil rfl).elim
    · rw [show DecodeBase64 [a] = none from rfl] at h; exact absurd h (by simp)
    · rw [show DecodeBase64 [a, b] = none from rfl] at h; exact absurd h (by simp)
    · rw [show DecodeBase64 [a, b, c] = none from rfl] at h; exact absurd h (by simp)
    · exact (h4 a b c d r rfl).elim

theorem decode_encode :
    ∀ (m : List Nat), (∀ b ∈ m, b < 256) → DecodeBase64 (EncodeBase64 m) = some m := by
  intro m
  induction m using EncodeBase64.induct
  case case1 a b c rest ih =>
    intro hlt
    have ha : a < 256 := hlt a (by simp)
    have hb : b < 256 := hlt b (by simp)
    have hc : c < 256 := hlt c (by simp)
    rw [show EncodeBase64 (a :: b :: c :: rest) =
        b64c (a / 4) :: b64c ((a % 4) * 16 + b / 16) ::
        b64c ((b % 16) * 4 + c / 64) :: b64c (c % 64) :: EncodeBase64 rest from rfl]
    by_cases hr : rest = []
    · subst hr
      rw [show EncodeBase64 [] = [] from rfl]
      rw [DecodeBase64]
      rw [if_pos rfl]
      unfold decodeLast
      rw [if_neg (b64c_ne_61 _), if_neg (b64c_ne_61 _)]
      rw [b64d_b64c (by omega), b64d_b64c (by omega), b64d_b64c (by omega),
          b64d_b64c (by omega)]
      simp only [Option.some.injEq, List.cons.injEq]
      refine ⟨by omega, by omega, by omega, trivial⟩
    · have hne : EncodeBase64 rest ≠ [] := fun hx => hr (encode_eq_nil hx)
      rw [DecodeBase64, if_neg hne]
      rw [b64d_b64c (by omega), b64d_b64c (by omega), b64d_b64c (by omega),
          b64d_b64c (by omega), ih (fun x hx => hlt x (by simp [hx]))]
      simp only [Option.some.injEq, List.cons.injEq]
      refine ⟨by omega, by omega, by omega, trivial⟩
  case case2 a b =>
    intro hlt
    have ha : a < 256 := hlt a (by simp)
    have hb : b < 256 := hlt b (by simp)
    rw [show EncodeBase64 [a, b] =
        [b64c (a / 4), b64c ((a % 4) * 16 + b / 16), b64c ((b % 16) * 4), 61] from rfl]
    rw [DecodeBase64, if_pos rfl]
    unfold decodeLast
    rw [if_neg (b64c_ne_61 _), if_pos rfl]
    rw [b64d_b64c (by omega), b64d_b64c (by omega), b64d_b64c (by omega)]
    simp only [Option.some.injEq, List.cons.injEq]
    rw [if_pos (by omega)]
    simp only [Option.some.injEq, List.cons.injEq]
    refine ⟨by omega, by omega, trivial⟩
  case case3 a =>
    intro hlt
    have ha : a < 256 := hlt a (by simp)
    rw [show EncodeBase64 [a] = [b64c (a / 4), b64c ((a % 4) * 16), 61, 61] from rfl]
    rw [DecodeBase64, if_pos rfl]
    unfold decodeLast
    rw [if_pos rfl, if_pos rfl]
    rw [b64d_b64c (by omega), b64d_b64c (by omega)]
    simp only [Option.some.injEq, List.cons.injEq]
    rw [if_pos (by omega)]
    simp only [Option.some.injEq, List.cons.injEq]
    refine ⟨by omega, trivial⟩
  case case4 =>
    intro _
    rfl

theorem isWS_b64c (d : Nat) : isWS (b64c d) = false := by
  have h := b64c_ge_43 d
  unfold isWS
  simp only [Bool.or_eq_false_iff, decide_eq_false_iff_not]
  omega

theorem encode_no_ws : ∀ (m : List Nat), ∀ c ∈ EncodeBase64 m, isWS c = false := by
  intro m
  induction m using EncodeBase64.induct
  case case1 a b c rest ih =>
    intro x hx
    rw [show EncodeBase64 (a :: b :: c :: rest) =
        b64c (a / 4) :: b64c ((a % 4) * 16 + b / 16) ::
        b64c ((b % 16) * 4 + c / 64) :: b64c (c % 64) :: EncodeBase64 rest from rfl] at hx
    simp only [List.mem_cons] at hx
    rcases hx with h | h | h | h | h
    · rw [h]; exact isWS_b64c _
    · rw [h]; exact isWS_b64c _
    · rw [h]; exact isWS_b64c _
    · rw [h]; exact isWS_b64c _
    · exact ih x h
  case case2 a b =>
    intro x hx
    rw [show EncodeBase64 [a, b] =
        [b64c (a / 4), b64c ((a % 4) * 16 + b / 16), b64c ((b % 16) * 4), 61] from rfl] at hx
    simp only [List.mem_cons, List.not_mem_nil, or_false] at hx
    rcases hx with h | h | h | h
    · rw [h]; exact isWS_b64c _
    · rw [h]; exact isWS_b64c _
    · rw [h]; exact isWS_b64c _
    · rw [h]; rfl
  case case3 a =>
    intro x hx
    rw [show EncodeBase64 [a] = [b64c (a / 4), b64c ((a % 4) * 16), 61, 61] from rfl] at hx
    simp only [List.mem_cons, List.not_mem_nil, or_false] at hx
    rcases hx with h | h | h | h
    · rw [h]; exact isWS_b64c _
    · rw [h]; exact isWS_b64c _
    · rw [h]; rfl
    · rw [h]; rfl
  case case4 =>
    intro x hx
    exact absurd hx (by simp [EncodeBase64])

theorem dropWhile_eq_self_of_no_match {p : Nat → Bool} {l : List Nat}
    (h : ∀ c ∈ l, p c = false) : l.dropWhile p = l := by
  cases l with
  | nil => rfl
  | cons a t => rw [List.dropWhile_cons, h a (by simp)]; simp

theorem trimWS_eq_self {l : List Nat} (h : ∀ c ∈ l, isWS c = false) : trimWS l = l := by
  unfold trimWS
  rw [dropWhile_eq_self_of_no_match h]
  rw [dropWhile_eq_self_of_no_match (fun c hc => h c (List.mem_reverse.mp hc))]
  exact l.reverse_reverse

theorem len_dropWhile_le (p : Nat → Bool) (l : List Nat) :
    (l.dropWhile p).length ≤ l.length := by
  induction l with
  | nil => simp
  | cons a t ih =>
    rw [List.dropWhile_cons]
    split
    · simp only [List.length_cons]; omega
    · exact Nat.le_refl _

theorem dropWhile_of_length_eq {p : Nat → Bool} {l : List Nat}
    (h : (l.dropWhile p).length = l.length) : l.dropWhile p = l := by
  cases l with
  | nil => rfl
  | cons a t =>
    by_cases hp : p a = true
    · rw [List.dropWhile_cons, if_pos hp] at h ⊢
      have hle := len_dropWhile_le p t
      simp only [List.length_cons] at h
      exfalso
      omega
    · rw [List.dropWhile_cons, if_neg hp]

theorem trimWS_length_le (l : List Nat) : (trimWS l).length ≤ l.length := by
  unfold trimWS
  calc (((l.dropWhile isWS).reverse.dropWhile isWS).reverse).length
      = ((l.dropWhile isWS).reverse.dropWhile isWS).length := List.length_reverse _
    _ ≤ (l.dropWhile isWS).reverse.length := len_dropWhile_le _ _
    _ = (l.dropWhile isWS).length := List.length_reverse _
    _ ≤ l.length := len_dropWhile_le _ _

theorem trimWS_of_length_eq {l : List Nat} (h : (trimWS l).length = l.length) :
    trimWS l = l := by
  unfold trimWS at h ⊢
  have h1 : ((l.dropWhile isWS).reverse.dropWhile isWS).length
      ≤ (l.dropWhile isWS).length := by
    calc ((l.dropWhile isWS).reverse.dropWhile isWS).length
        ≤ (l.dropWhile isWS).reverse.length := len_dropWhile_le _ _
      _ = (l.dropWhile isWS).length := List.length_reverse _
  have h2 : (l.dropWhile isWS).length ≤ l.length := len_dropWhile_le _ _
  rw [List.length_reverse] at h
  have e2 : l.dropWhile isWS = l := dropWhile_of_length_eq (by omega)
  rw [e2] at h ⊢
  have e1 : l.reverse.dropWhile isWS = l.reverse :=
    dropWhile_of_length_eq (by rw [List.length_reverse]; omega)
  rw [e1, List.reverse_reverse]

theorem set_ne_of_changed :
    ∀ (l : List Nat) (i x : Nat), i < l.length → x ≠ l.getD i 0 → l.set i x ≠ l := by
  intro l
  induction l with
  | nil => intro i x hi; simp at hi
  | cons a t ih =>
    intro i x hi hx
    cases i with
    | zero =>
      intro he
      simp only [List.set] at he
      injection he with h1 h2
      exact hx h1
    | succ j =>
      intro he
      simp only [List.set] at he
      injection he with h1 h2
      exact ih j x (by simpa using hi) hx h2

theorem xor_pow_ne (b k : Nat) : b ^^^ 2 ^ k ≠ b := by
  intro he
  have h2 : 2 ^ k ≠ 0 := Nat.pos_iff_ne_zero.mp (Nat.pos_pow_of_pos k (by omega))
  have : b ^^^ (b ^^^ 2 ^ k) = b ^^^ b := by rw [he]
  rw [← Nat.xor_assoc, Nat.xor_self, Nat.zero_xor] at this
  exact h2 this

theorem flipBit_ne {l : List Nat} {i k : Nat} (hi : i < l.length) : flipBit l i k ≠ l :=
  set_ne_of_changed l i _ hi (xor_pow_ne _ _)

theorem flipBit_length (l : List Nat) (i k : Nat) : (flipBit l i k).length = l.length := by
  unfold flipBit; exact l.length_set i _

theorem take_basic (x : List Nat) : (basicToken ++ x).take 6 = basicToken := by
  rfl

theorem drop_basic (x : List Nat) : (basicToken ++ x).drop 6 = x := by
  rfl

theorem rpcauth_encode_ok {stored : List Nat} (hne : stored ≠ [])
    (hb : ∀ b ∈ stored, b < 256) :
    RPCAuthorized stored (basicToken ++ EncodeBase64 stored) = true := by
  unfold RPCAuthorized
  rw [if_neg hne, take_basic, if_neg (not_not_intro rfl), drop_basic]
  rw [trimWS_eq_self (encode_no_ws stored)]
  simp only [decode_encode stored hb]
  unfold TimingResistantEqual
  simp

theorem rpcauth_flip_fails {stored : List Nat} (hne : stored ≠ []) {i k : Nat}
    (hi : i < (EncodeBase64 stored).length) :
    RPCAuthorized stored (basicToken ++ flipBit (EncodeBase64 stored) i k) = false := by
  unfold RPCAuthorized
  rw [if_neg hne, take_basic, if_neg (not_not_intro rfl), drop_basic]
  rcases hd : DecodeBase64 (trimWS (flipBit (EncodeBase64 stored) i k)) with _ | p
  · simp only [hd]
  · simp only [hd]
    unfold TimingResistantEqual
    apply beq_eq_false_iff_ne.mpr
    intro hpe
    subst hpe
    have hcan := decode_canonical _ _ hd
    have hlen : (trimWS (flipBit (EncodeBase64 p) i k)).length
        = (flipBit (EncodeBase64 p) i k).length := by
      rw [← hcan, flipBit_length]
    have htr := trimWS_of_length_eq hlen
    rw [htr] at hcan
    exact flipBit_ne hi hcan.symm

/-- C7: the error-code-to-HTTP-status mapping is total on the integers:
invalid request maps to 400, method not found to 404, and every other code
(parse error and in-warmup included) to 500. -/
theorem claim_C7_error_status_total :
    JSONErrorStatus RPC_INVALID_REQUEST = HTTP_BAD_REQUEST ∧
    JSONErrorStatus RPC_METHOD_NOT_FOUND = HTTP_NOT_FOUND ∧
    ∀ code : Int, code ≠ RPC_INVALID_REQUEST → code ≠ RPC_METHOD_NOT_FOUND →
      JSONErrorStatus code = HTTP_INTERNAL_SERVER_ERROR := by
  refine ⟨rfl, rfl, ?_⟩
  intro code h1 h2
  unfold JSONErrorStatus
  rw [if_neg h1, if_neg h2]

/-- C7 witness: the parse-error and in-warmup codes land in the 500 bucket. -/
theorem claim_C7_witness :
    JSONErrorStatus RPC_PARSE_ERROR = HTTP_INTERNAL_SERVER_ERROR ∧
    JSONErrorStatus RPC_IN_WARMUP = HTTP_INTERNAL_SERVER_ERROR :=
  ⟨claim_C7_error_status_total.2.2 RPC_PARSE_ERROR (by decide) (by decide),
   claim_C7_error_status_total.2.2 RPC_IN_WARMUP (by decide) (by decide)⟩

/-- C3: `RPCAuthorized` refines the Authenticator contract: false on an empty
stored credential, false without the literal "Basic " prefix, otherwise the
trimmed remainder is base64-decoded and compared with the stored credential,
a decoding failure counting as a non-match rather than a crash. -/
theorem claim_C3_authorized_refines_spec (stored strAuth : List Nat) :
    RPCAuthorized stored strAuth = AuthorizedSpec stored strAuth := by
  unfold RPCAuthorized AuthorizedSpec TimingResistantEqual
  by_cases h1 : stored = []
  · rw [if_pos h1, if_pos h1]
  · rw [if_neg h1, if_neg h1]
    by_cases h2 : strAuth.take 6 = basicToken
    · rw [if_neg (not_not_intro h2), if_pos h2]
    · rw [if_pos h2, if_neg h2]

/-- C10: `InitRPCAuthentication` always stores `user ++ ":" ++ password`,
which is never empty, so the fail-secure empty-credential branch of
`RPCAuthorized` cannot fire after a successful start; with both values empty
and no password required, startup succeeds with credential ":" and the header
carrying base64(":") authenticates. -/
theorem claim_C10_credential_never_empty (cfg : Config) :
    (InitRPCAuthentication cfg).1 = cfg.rpcuser ++ 58 :: cfg.rpcpassword ∧
    (InitRPCAuthentication cfg).1 ≠ [] ∧
    (cfg.rpcuser = [] → cfg.rpcpassword = [] → cfg.requireRPCPassword = false →
      (InitRPCAuthentication cfg).2 = true ∧
      (InitRPCAuthentication cfg).1 = [58] ∧
      RPCAuthorized (InitRPCAuthentication cfg).1 (basicToken ++ EncodeBase64 [58]) = true) := by
  have h1 : (InitRPCAuthentication cfg).1 = cfg.rpcuser ++ 58 :: cfg.rpcpassword := by
    unfold InitRPCAuthentication
    split <;> rfl
  refine ⟨h1, ?_, ?_⟩
  · rw [h1]
    simp
  · intro hu hp hr
    have h2 : (InitRPCAuthentication cfg).2 = true := by
      unfold InitRPCAuthentication
      rw [if_neg (by simp [hr])]
    have h3 : (InitRPCAuthentication cfg).1 = [58] := by
      rw [h1, hu, hp]
      rfl
    refine ⟨h2, h3, ?_⟩
    rw [h3]
    decide

/-- C10 witness: the empty/empty configuration with no password required. -/
theorem claim_C10_witness :
    (InitRPCAuthentication
      { rpcuser := [], rpcpassword := [], requireRPCPassword := false }).2 = true ∧
    (InitRPCAuthentication
      { rpcuser := [], rpcpassword := [], requireRPCPassword := false }).1 = [58] ∧
    RPCAuthorized
      (InitRPCAuthentication
        { rpcuser := [], rpcpassword := [], requireRPCPassword := false }).1
      (basicToken ++ EncodeBase64 [58]) = true :=
  (claim_C10_credential_never_empty _).2.2 rfl rfl rfl


/-- C2: every POST whose authentication fails — missing Authorization header,
or a header value (wrong scheme, undecodable or mismatched) rejected by
`RPCAuthorized` — gets the same externally observable response: the 401 status
with an empty body. -/
theorem claim_C2_auth_failure_uniform_response (w : World) (req : HTTPRequestData)
    (hpost : req.method = RequestMethod.POST)
    (hfail : req.authorization = none ∨
      ∃ a, req.authorization = some a ∧ RPCAuthorized w.strRPCUserColonPass a = false) :
    replies (HTTPReq_JSONRPC w req).1 = [(HTTP_UNAUTHORIZED, JBody.str "")] := by
  unfold HTTPReq_JSONRPC
  rw [hpost]
  rcases hfail with h | ⟨a, ha, hauth⟩
  · rw [h]
    rfl
  · rw [ha]
    simp only [hauth]
    rfl

/-- C2 witness: a mismatched Basic header gets the bare 401. -/
theorem claim_C2_witness :
    replies (HTTPReq_JSONRPC wOk reqBadAuth).1 = [(HTTP_UNAUTHORIZED, JBody.str "")] :=
  claim_C2_auth_failure_uniform_response wOk reqBadAuth rfl
    (Or.inr ⟨basicToken ++ [33], rfl, by decide⟩)

/-- C4 counterexample: a POST with no Authorization header is answered with
the 401 immediately — the trace holds no `MilliSleep` and no log line, so the
250ms delay does not precede every authentication-failure 401. -/
theorem claim_C4_counterexample :
    (HTTPReq_JSONRPC wOk reqNoAuth).1 = [Event.writeReply HTTP_UNAUTHORIZED (JBody.str "")] ∧
    Event.milliSleep 250 ∉ (HTTPReq_JSONRPC wOk reqNoAuth).1 ∧
    Event.logPrint ("ThreadRPCServer incorrect password attempt from " ++ reqNoAuth.peer) ∉
      (HTTPReq_JSONRPC wOk reqNoAuth).1 := by
  refine ⟨rfl, ?_, ?_⟩ <;> · intro hmem
                             rw [show (HTTPReq_JSONRPC wOk reqNoAuth).1 =
                               [Event.writeReply HTTP_UNAUTHORIZED (JBody.str "")] from rfl] at hmem
                             simp at hmem

/-- C4 amended: when an Authorization header is present but rejected, the
handler logs the attempt with the peer address and sleeps 250ms before
writing the 401 (the sleep strictly precedes the reply in the trace); a POST
with no Authorization header is answered 401 immediately, with no delay and
no logging. -/
theorem claim_C4_delay_before_401 (w : World) (req : HTTPRequestData) (a : List Nat)
    (hpost : req.method = RequestMethod.POST)
    (ha : req.authorization = some a)
    (hauth : RPCAuthorized w.strRPCUserColonPass a = false) :
    (HTTPReq_JSONRPC w req).1 =
      [Event.logPrint ("ThreadRPCServer incorrect password attempt from " ++ req.peer),
       Event.milliSleep 250,
       Event.writeReply HTTP_UNAUTHORIZED (JBody.str "")] ∧
    (HTTPReq_JSONRPC w { req with authorization := none }).1 =
      [Event.writeReply HTTP_UNAUTHORIZED (JBody.str "")] := by
  constructor
  · unfold HTTPReq_JSONRPC
    rw [hpost, ha]
    simp only [hauth]
    rfl
  · unfold HTTPReq_JSONRPC
    simp only [hpost]
    rfl

/-- C4 witness: the delayed, logged 401 on a concrete bad credential. -/
theorem claim_C4_witness :
    (HTTPReq_JSONRPC wOk reqBadAuth).1 =
      [Event.logPrint ("ThreadRPCServer incorrect password attempt from " ++ reqBadAuth.peer),
       Event.milliSleep 250,
       Event.writeReply HTTP_UNAUTHORIZED (JBody.str "")] :=
  (claim_C4_delay_before_401 wOk reqBadAuth (basicToken ++ [33]) rfl rfl (by decide)).1


theorem envId_reply (r e i : JVal) : envId (JSONRPCReplyObj r e i) = i := by
  cases e <;> rfl

theorem jsonReplies_errorReply (objError : Obj) (id : JVal) :
    jsonReplies (JSONErrorReply objError id) =
      [JSONRPCReplyObj JVal.null (JVal.obj objError) id] := rfl

/-- C5: for a well-formed authenticated single request, the id of the response
envelope — result envelope or error envelope alike — equals the id of the
request exactly, JSON null included. -/
theorem claim_C5_response_echoes_id (w : World) (req : HTTPRequestData) (a : List Nat)
    (fields : List (String × JVal)) (m : String)
    (hpost : req.method = RequestMethod.POST)
    (ha : req.authorization = some a)
    (hauth : RPCAuthorized w.strRPCUserColonPass a = true)
    (hread : w.read_string req.body = some (JVal.obj fields))
    (hwarm : w.warmup = none)
    (hmethod : find_value fields "method" = JVal.str m) :
    ∃ env, jsonReplies (HTTPReq_JSONRPC w req).1 = [env] ∧
      envId env = find_value fields "id" := by
  unfold HTTPReq_JSONRPC JSONRequest.parse
  rw [hpost, ha]
  simp only [hauth, hread, hwarm, hmethod, ne_eq, not_true_eq_false, if_false, if_true,
    ite_false, ite_true]
  rcases hex : w.execute m (find_value fields "params") with t | r
  · rcases t with objError | what
    · exact ⟨_, jsonReplies_errorReply _ _, envId_reply _ _ _⟩
    · exact ⟨_, jsonReplies_errorReply _ _, envId_reply _ _ _⟩
  · exact ⟨_, rfl, envId_reply _ _ _⟩

/-- C5 witness: the `"pong"` result envelope echoes id 7. -/
theorem claim_C5_witness :
    ∃ env, jsonReplies (HTTPReq_JSONRPC wOk reqOk).1 = [env] ∧
      envId env = find_value [("method", JVal.str "ping"), ("params", JVal.arr []),
                              ("id", JVal.num 7)] "id" :=
  claim_C5_response_echoes_id wOk reqOk (basicToken ++ EncodeBase64 [117, 58, 112])
    [("method", JVal.str "ping"), ("params", JVal.arr []), ("id", JVal.num 7)] "ping"
    rfl rfl (by decide) rfl rfl rfl


/-- C6: on an authenticated POST whose body parses, a warming-up node answers
with the in-warmup error envelope carrying the live status string, and the
method registry is never consulted (the handler's output is invariant under
any replacement of `execute`). -/
theorem claim_C6_warmup_short_circuit (w : World) (req : HTTPRequestData) (a : List Nat)
    (v : JVal) (status : String)
    (exec1 exec2 : String → JVal → Except Thrown JVal)
    (hpost : req.method = RequestMethod.POST)
    (ha : req.authorization = some a)
    (hauth : RPCAuthorized w.strRPCUserColonPass a = true)
    (hread : w.read_string req.body = some v)
    (hwarm : w.warmup = some status) :
    HTTPReq_JSONRPC { w with execute := exec1 } req =
      HTTPReq_JSONRPC { w with execute := exec2 } req ∧
    (HTTPReq_JSONRPC w req).1 =
      JSONErrorReply (JSONRPCError RPC_IN_WARMUP status) JVal.null ∧
    jsonReplies (HTTPReq_JSONRPC w req).1 =
      [JSONRPCReplyObj JVal.null (JVal.obj (JSONRPCError RPC_IN_WARMUP status)) JVal.null] := by
  have key : ∀ exec : String → JVal → Except Thrown JVal,
      HTTPReq_JSONRPC { w with execute := exec } req =
        (JSONErrorReply (JSONRPCError RPC_IN_WARMUP status) JVal.null, false) := by
    intro exec
    unfold HTTPReq_JSONRPC
    rw [hpost, ha]
    simp only [hauth, hread, hwarm, ne_eq, not_true_eq_false, if_false, if_true,
      ite_false, ite_true]
  have keyw : HTTPReq_JSONRPC w req =
      (JSONErrorReply (JSONRPCError RPC_IN_WARMUP status) JVal.null, false) := by
    unfold HTTPReq_JSONRPC
    rw [hpost, ha]
    simp only [hauth, hread, hwarm, ne_eq, not_true_eq_false, if_false, if_true,
      ite_false, ite_true]
  refine ⟨(key exec1).trans (key exec2).symm, ?_, ?_⟩
  · rw [keyw]
  · rw [keyw]
    exact jsonReplies_errorReply _ _

/-- C6 witness: concrete warming-up world. -/
theorem claim_C6_witness :
    (HTTPReq_JSONRPC wWarm reqOk).1 =
      JSONErrorReply (JSONRPCError RPC_IN_WARMUP "Loading block index...") JVal.null :=
  (claim_C6_warmup_short_circuit wWarm reqOk (basicToken ++ EncodeBase64 [117, 58, 112])
    (JVal.obj [("method", JVal.str "ping"), ("params", JVal.arr []), ("id", JVal.num 7)])
    "Loading block index..." wWarm.execute wWarm.execute
    rfl rfl (by decide) rfl rfl).2.1


/-- C8: after authentication, no body-processing failure escapes the handler:
an unparseable body yields the "Parse error" envelope, a top-level value that
is neither object nor array yields the "Top-level object parse error"
envelope, a `std::exception` from the registry is wrapped under the generic
parse-error code with the exception's description as message — and in every
case exactly one reply (an error envelope with result null, under some HTTP
status) is written, never a propagated exception. -/
theorem claim_C8_no_fault_escapes (w : World) (req : HTTPRequestData) (a : List Nat)
    (hpost : req.method = RequestMethod.POST)
    (ha : req.authorization = some a)
    (hauth : RPCAuthorized w.strRPCUserColonPass a = true) :
    (w.read_string req.body = none →
      (HTTPReq_JSONRPC w req).1 =
        JSONErrorReply (JSONRPCError RPC_PARSE_ERROR "Parse error") JVal.null) ∧
    (∀ v, w.read_string req.body = some v → w.warmup = none → isObjOrArr v = false →
      (HTTPReq_JSONRPC w req).1 =
        JSONErrorReply (JSONRPCError RPC_PARSE_ERROR "Top-level object parse error") JVal.null) ∧
    (∀ fields m what, w.read_string req.body = some (JVal.obj fields) → w.warmup = none →
      find_value fields "method" = JVal.str m →
      w.execute m (find_value fields "params") = Except.error (Thrown.stdExc what) →
      (HTTPReq_JSONRPC w req).1 =
        JSONErrorReply (JSONRPCError RPC_PARSE_ERROR what) (find_value fields "id")) ∧
    (∃ s b, replies (HTTPReq_JSONRPC w req).1 = [(s, b)]) := by
  refine ⟨?_, ?_, ?_, ?_⟩
  · intro hread
    unfold HTTPReq_JSONRPC
    rw [hpost, ha]
    simp only [hauth, hread, ne_eq, not_true_eq_false, if_false, if_true, ite_false, ite_true]
  · intro v hread hwarm hshape
    unfold HTTPReq_JSONRPC
    rw [hpost, ha]
    simp only [hauth, hread, hwarm, ne_eq, not_true_eq_false, if_false, if_true,
      ite_false, ite_true]
    cases v <;> first
      | rfl
      | (exact absurd hshape (by simp [isObjOrArr]))
  · intro fields m what hread hwarm hmethod hex
    unfold HTTPReq_JSONRPC JSONRequest.parse
    rw [hpost, ha]
    simp only [hauth, hread, hwarm, hmethod, hex, ne_eq, not_true_eq_false, if_false,
      if_true, ite_false, ite_true]
  · unfold HTTPReq_JSONRPC
    rw [hpost, ha]
    simp only [hauth, ne_eq, not_true_eq_false, if_false, if_true, ite_false, ite_true]
    rcases hr : w.read_string req.body with _ | v
    · exact ⟨_, _, rfl⟩
    · rcases hw : w.warmup with _ | status
      · cases v
        case obj fields =>
          rcases hp : JSONRequest.parse (JVal.obj fields) with ⟨jreq, oerr⟩
          simp only [hp]
          rcases oerr with _ | objError
          · rcases hex : w.execute jreq.strMethod jreq.params with t | r
            · simp only [hex]
              rcases t with objError | what
              · exact ⟨_, _, rfl⟩
              · exact ⟨_, _, rfl⟩
            · simp only [hex]
              exact ⟨_, _, rfl⟩
          · exact ⟨_, _, rfl⟩
        all_goals exact ⟨_, _, rfl⟩
      · exact ⟨_, _, rfl⟩

/-- C8 witness: a registry `std::exception` with description "boom" becomes
the parse-error envelope echoing id 7. -/
theorem claim_C8_witness :
    (HTTPReq_JSONRPC wExc reqOk).1 =
      JSONErrorReply (JSONRPCError RPC_PARSE_ERROR "boom")
        (find_value [("method", JVal.str "ping"), ("params", JVal.arr []),
                     ("id", JVal.num 7)] "id") :=
  (claim_C8_no_fault_escapes wExc reqOk (basicToken ++ EncodeBase64 [117, 58, 112])
      rfl rfl (by decide)).2.2.1
    [("method", JVal.str "ping"), ("params", JVal.arr []), ("id", JVal.num 7)]
    "ping" "boom" rfl rfl rfl rfl


theorem stepTimer_fire (s : TimerState) :
    stepTimer s TimerStep.fire =
      if s.pending ∧ ¬ s.destroyed then
        { s with pending := false, fired := s.fired + 1,
                 destroyed := s.deleteWhenTriggered }
      else s := rfl

theorem stepTimer_destroy (s : TimerState) :
    stepTimer s TimerStep.destroy = { s with pending := false, destroyed := true } := rfl

theorem timer_inv (steps : List TimerStep) (s : TimerState)
    (h1 : s.fired ≤ 1) (h2 : s.pending = true → s.fired = 0) :
    (steps.foldl stepTimer s).fired ≤ 1 ∧
    ((steps.foldl stepTimer s).pending = true → (steps.foldl stepTimer s).fired = 0) := by
  induction steps generalizing s with
  | nil => exact ⟨h1, h2⟩
  | cons st rest ih =>
    rw [List.foldl_cons]
    cases st with
    | fire =>
      rw [stepTimer_fire]
      split
      · rename_i hc
        refine ih _ ?_ ?_
        · show s.fired + 1 ≤ 1
          have := h2 hc.1
          omega
        · intro hp
          simp at hp
      · exact ih s h1 h2
    | destroy =>
      rw [stepTimer_destroy]
      refine ih _ h1 ?_
      intro hp
      simp at hp

theorem timer_destroyed (steps : List TimerStep) (s : TimerState)
    (hd : s.destroyed = false) (hf : s.deleteWhenTriggered = false)
    (h : (steps.foldl stepTimer s).destroyed = true) : TimerStep.destroy ∈ steps := by
  induction steps generalizing s with
  | nil =>
    rw [List.foldl_nil, hd] at h
    exact absurd h (by simp)
  | cons st rest ih =>
    rw [List.foldl_cons] at h
    cases st with
    | fire =>
      rw [stepTimer_fire] at h
      split at h
      · refine List.mem_cons_of_mem _ (ih _ ?_ ?_ h)
        · show s.deleteWhenTriggered = false
          exact hf
        · show s.deleteWhenTriggered = false
          exact hf
      · exact List.mem_cons_of_mem _ (ih s hd hf h)
    | destroy =>
      exact List.mem_cons_self _ _

/-- C1: for a stored `user:secret` credential, the header "Basic " followed by
its exact base64 encoding authenticates, and flipping any single bit of the
encoded portion makes authentication fail. -/
theorem claim_C1_exact_encoding_roundtrip (user secret : List Nat)
    (hb : ∀ b ∈ user ++ 58 :: secret, b < 256) (i k : Nat)
    (hi : i < (EncodeBase64 (user ++ 58 :: secret)).length) (hk : k < 8) :
    RPCAuthorized (user ++ 58 :: secret)
      (basicToken ++ EncodeBase64 (user ++ 58 :: secret)) = true ∧
    RPCAuthorized (user ++ 58 :: secret)
      (basicToken ++ flipBit (EncodeBase64 (user ++ 58 :: secret)) i k) = false :=
  ⟨rpcauth_encode_ok (by simp) hb, rpcauth_flip_fails (by simp) hi⟩

/-- C1 witness: credential "u:p", flipping bit 0 of the first encoded byte. -/
theorem claim_C1_witness :
    RPCAuthorized [117, 58, 112] (basicToken ++ EncodeBase64 [117, 58, 112]) = true ∧
    RPCAuthorized [117, 58, 112]
      (basicToken ++ flipBit (EncodeBase64 [117, 58, 112]) 0 0) = false :=
  claim_C1_exact_encoding_roundtrip [117] [112] (by decide) 0 0 (by decide) (by decide)

/-- C9 counterexample: the timer constructed by `HTTPRPCTimer` (whose
`HTTPEvent` is built with `deleteWhenTriggered = false`) is not destroyed by
firing: after one fire the callback has run and the registration is consumed,
but the object survives. -/
theorem claim_C9_counterexample :
    (runTimer [TimerStep.fire]).fired = 1 ∧
    (runTimer [TimerStep.fire]).pending = false ∧
    (runTimer [TimerStep.fire]).destroyed = false := by
  refine ⟨rfl, rfl, rfl⟩

/-- C9 amended: an `HTTPRPCTimer` fires its callback at most once under any
sequence of event-loop steps, and a still-pending registration means it has
not fired; but it does not self-destruct on firing — it is destroyed only by
an explicit owner destruction (cancellation) step. -/
theorem claim_C9_timer_at_most_once (steps : List TimerStep) :
    (runTimer steps).fired ≤ 1 ∧
    ((runTimer steps).pending = true → (runTimer steps).fired = 0) ∧
    ((runTimer steps).destroyed = true → TimerStep.destroy ∈ steps) := by
  refine ⟨(timer_inv steps HTTPRPCTimer.new (by decide) (fun _ => rfl)).1,
          (timer_inv steps HTTPRPCTimer.new (by decide) (fun _ => rfl)).2,
          timer_destroyed steps HTTPRPCTimer.new rfl rfl⟩

/-- C9 witness: two fire steps still fire only once; a destroyed timer's run
contains an explicit destroy step. -/
theorem claim_C9_witness :
    (runTimer [TimerStep.fire, TimerStep.fire]).fired ≤ 1 ∧
    TimerStep.destroy ∈ [TimerStep.fire, TimerStep.destroy] :=
  ⟨(claim_C9_timer_at_most_once [TimerStep.fire, TimerStep.fire]).1,
   (claim_C9_timer_at_most_once [TimerStep.fire, TimerStep.destroy]).2.2 rfl⟩


end HttpRpc
